import Mathlib

/-!
Verification of the FunASR TypeScript client (`funasr-client-ts`).

This file shallowly embeds the `FunASRClient` class (source files
`src/funasr.ts` and `src/types.ts`; where the two shipped revisions of
`funasr.ts` differ, the revision that matches the README — promise-returning
`connect`, `chunk_size` default, `setStartTime` — is the one embedded, and
each definition's doc comment names its source lines) and proves the
testable properties of its specification: the timestamp-shift decoder, the
connect handshake and its promise, the monotone one-shot completion signal,
the close/timeout race, and the send no-op policy.

JavaScript numbers appearing in messages are embedded as `Int` (all the
values involved are millisecond integers); `JSON.parse` of the wire-level
`timestamp` string is kept abstract as a function argument
`parse : String → List (Int × Int)`, since the client forwards its output
unexamined.
-/

namespace FunASR

/-- One sentence-level timestamp record of `FunASRMessage.stamp_sents`
(`src/types.ts` lines 90-96): text segment, punctuation, start/end in
milliseconds, and a list of `[start, end]` pairs. -/
structure StampSent where
  text_seg : String
  punc : String
  start : Int
  «end» : Int
  ts_list : List (Int × Int)
  deriving DecidableEq, Repr

/-- A server-to-client result message (`src/types.ts` lines 66-97): the
`timestamp` field is the wire-level textually encoded pair array. -/
structure FunASRMessage where
  mode : String
  wav_name : String
  text : String
  is_final : Bool
  timestamp : Option String
  stamp_sents : Option (List StampSent)
  deriving DecidableEq, Repr

/-- The decoded message (`src/types.ts` lines 102-122): `timestamp` parsed
into numeric pairs, plus the two derived absolute-timestamp fields that are
populated only when a positive start time is configured. -/
structure FunASRMessageDecoded where
  mode : String
  wav_name : String
  text : String
  is_final : Bool
  timestamp : Option (List (Int × Int))
  stamp_sents : Option (List StampSent)
  real_timestamp : Option (List (Int × Int))
  real_stamp_sents : Option (List StampSent)
  deriving DecidableEq, Repr

/-- Shift one `[start, end]` pair by `startTime` (the arrow bodies of
`src/funasr.ts`: `ts => [ts[0] + startTime, ts[1] + startTime]`). -/
def shiftPair (startTime : Int) (ts : Int × Int) : Int × Int :=
  (ts.1 + startTime, ts.2 + startTime)

/-- Shift one sentence record (`src/funasr.ts`, the `real_stamp_sents`
mapper): all `ts_list` pairs shifted unconditionally, `start`/`end` shifted
only when non-negative (`sent.start >= 0 ? sent.start + startTime :
sent.start`). -/
def shiftSent (startTime : Int) (sent : StampSent) : StampSent :=
  { sent with
    ts_list := sent.ts_list.map (shiftPair startTime),
    start := if sent.start ≥ 0 then sent.start + startTime else sent.start,
    «end» := if sent.«end» ≥ 0 then sent.«end» + startTime else sent.«end» }

/-- The decode block of the `onmessage` handler (`src/funasr.ts`: build
`dataDecoded` with `timestamp: data.timestamp ? JSON.parse(data.timestamp) :
undefined`, then, when `startTime !== undefined && startTime > 0`, populate
`real_timestamp` and `real_stamp_sents`). `parse` stands for the host
`JSON.parse` applied to the timestamp string. -/
def decodeMessage (parse : String → List (Int × Int)) (startTime : Option Int)
    (data : FunASRMessage) : FunASRMessageDecoded :=
  let base : FunASRMessageDecoded :=
    { mode := data.mode
      wav_name := data.wav_name
      text := data.text
      is_final := data.is_final
      timestamp := data.timestamp.map parse
      stamp_sents := data.stamp_sents
      real_timestamp := none
      real_stamp_sents := none }
  match startTime with
  | some st =>
      if st > 0 then
        { base with
          real_timestamp := base.timestamp.map (fun l => l.map (shiftPair st))
          real_stamp_sents := base.stamp_sents.map (fun l => l.map (shiftSent st)) }
      else base
  | none => base

/-- Escape a string for inclusion in a JSON text (the relevant fragment of
the host `JSON.stringify` string encoder: backslash and double quote are
escaped; hotword keys contain no control characters in the modelled runs). -/
def jsonEscape (s : String) : String :=
  String.join (s.toList.map (fun c =>
    if c = '\\' then "\\\\" else if c = '"' then "\\\"" else String.singleton c))

/-- The host `JSON.stringify` applied to a hotword map
`Record<string, number>` (`src/funasr.ts`:
`JSON.stringify(this.opts.config.hotwords)`), producing the embedded encoded
string the wire protocol requires. -/
def stringifyHotwords (hotwords : List (String × Int)) : String :=
  "\x7b" ++ String.intercalate ","
    (hotwords.map (fun p => "\"" ++ jsonEscape p.1 ++ "\":" ++ toString p.2)) ++
  "\x7d"

/-- JSON values that occur in the client-to-server handshake object:
strings, numbers, booleans, `null`, and numeric arrays (`chunk_size`). -/
inductive JsonValue where
  | str (s : String)
  | num (n : Int)
  | bool (b : Bool)
  | null
  | numArr (elems : List Int)
  deriving DecidableEq, Repr

/-- The caller-supplied initial configuration (`FunASRInitConfig` in
`src/types.ts` lines 129-131: `FunASRInitMessage` without `is_speaking`,
with `hotwords` as a structured map). Every field is optional. -/
structure FunASRInitConfig where
  mode : Option String := none
  wav_name : Option String := none
  wav_format : Option String := none
  chunk_size : Option (List Int) := none
  audio_fs : Option Int := none
  hotwords : Option (List (String × Int)) := none
  itn : Option Bool := none
  svs_lang : Option String := none
  svs_itn : Option Bool := none
  deriving DecidableEq, Repr

/-- A present optional field contributes one key/value member to the
serialized handshake object; an absent one (value `undefined` in the spread
payload) contributes nothing, because `JSON.stringify` drops
undefined-valued members. -/
def optField (key : String) (v : Option JsonValue) : List (String × JsonValue) :=
  match v with
  | some j => [(key, j)]
  | none => []

/-- The serialized handshake payload built in the `onopen` handler
(`src/funasr.ts`: `{...this.opts.config, is_speaking: true, chunk_size:
this.opts.config?.chunk_size ?? [5, 10, 5], hotwords: config?.hotwords ?
JSON.stringify(config.hotwords) : undefined}` passed to `JSON.stringify`),
as the list of members of the resulting JSON object. Member insertion order
is not semantically relevant here and is not part of any claim; the
overriding members (`is_speaking`, `chunk_size`, `hotwords`) carry their
overridden values, and absent optional fields are dropped. -/
def buildHandshake (config : Option FunASRInitConfig) : List (String × JsonValue) :=
  optField "mode" ((config.bind (fun c => c.mode)).map JsonValue.str) ++
  optField "wav_name" ((config.bind (fun c => c.wav_name)).map JsonValue.str) ++
  optField "wav_format" ((config.bind (fun c => c.wav_format)).map JsonValue.str) ++
  optField "audio_fs" ((config.bind (fun c => c.audio_fs)).map JsonValue.num) ++
  optField "itn" ((config.bind (fun c => c.itn)).map JsonValue.bool) ++
  optField "svs_lang" ((config.bind (fun c => c.svs_lang)).map JsonValue.str) ++
  optField "svs_itn" ((config.bind (fun c => c.svs_itn)).map JsonValue.bool) ++
  [("is_speaking", JsonValue.bool true)] ++
  [("chunk_size", JsonValue.numArr ((config.bind (fun c => c.chunk_size)).getD [5, 10, 5]))] ++
  optField "hotwords" ((config.bind (fun c => c.hotwords)).map
    (fun hw => JsonValue.str (stringifyHotwords hw)))

/-- The one-shot completion signal backing `finalPromise`: pending until
`resolveFinal` runs, then fulfilled (resolving an already-resolved promise
is a no-op in the host). -/
inductive SignalState where
  | pending
  | fulfilled
  deriving DecidableEq, Repr

/-- Settlement state of the promise returned by `connect()`. A promise
settles at most once; later `resolve`/`reject` calls are no-ops. -/
inductive PromiseState where
  | pending
  | resolved
  | rejected (reason : String)
  deriving DecidableEq, Repr

/-- First settlement wins: `resolve`/`reject` on an already-settled promise
leaves it unchanged (host promise semantics). -/
def settle (p : PromiseState) (outcome : PromiseState) : PromiseState :=
  match p with
  | PromiseState.pending => outcome
  | _ => p

/-- The four channel events a `WebSocket` delivers to its handlers. -/
inductive ChannelEvent where
  | opened
  | message (data : FunASRMessage)
  | errored
  | closed
  deriving DecidableEq, Repr

/-- Rejection reason installed by the `onerror` handler (`src/funasr.ts`:
`reject(\x60WebSocket connection to $\x7bthis.opts.url\x7d failed.\x60)`). -/
def failedMsg (url : String) : String :=
  "WebSocket connection to " ++ url ++ " failed."

/-- Rejection reason installed by the `onclose` handler (`src/funasr.ts`:
`reject(\x60WebSocket connection to $\x7bthis.opts.url\x7d closed.\x60)`). -/
def closedMsg (url : String) : String :=
  "WebSocket connection to " ++ url ++ " closed."

/-- Observable state accumulated while the handlers installed by
`connect()` process channel events: the settlement state of the returned
promise, the JSON payloads sent on the socket, the `onStateChange`
notifications in order, and the completion signal. -/
structure ConnectRun where
  promise : PromiseState
  sent : List (List (String × JsonValue))
  notified : List String
  signal : SignalState
  deriving DecidableEq, Repr

/-- One channel event processed by the handlers `connect()` installs
(`src/funasr.ts`): `onopen` sends the handshake, notifies "connected" and
resolves; `onmessage` fulfils the completion signal when `is_final`;
`onerror` notifies "error" and rejects with `failedMsg`; `onclose` notifies
"closed" and rejects with `closedMsg`. Message decoding and delivery is
modelled separately (`decodeMessage`, `runSession`). -/
def connectStep (config : Option FunASRInitConfig) (url : String)
    (r : ConnectRun) (e : ChannelEvent) : ConnectRun :=
  match e with
  | ChannelEvent.opened =>
      { r with
        sent := r.sent ++ [buildHandshake config]
        notified := r.notified ++ ["connected"]
        promise := settle r.promise PromiseState.resolved }
  | ChannelEvent.message data =>
      { r with
        signal := if data.is_final then SignalState.fulfilled else r.signal }
  | ChannelEvent.errored =>
      { r with
        notified := r.notified ++ ["error"]
        promise := settle r.promise (PromiseState.rejected (failedMsg url)) }
  | ChannelEvent.closed =>
      { r with
        notified := r.notified ++ ["closed"]
        promise := settle r.promise (PromiseState.rejected (closedMsg url)) }

/-- State right after `connect()` installs the handlers: promise pending,
nothing sent or notified, fresh pending completion signal. -/
def connectInit : ConnectRun :=
  { promise := PromiseState.pending, sent := [], notified := [],
    signal := SignalState.pending }

/-- Process a whole sequence of channel events through the `connect()`
handlers. -/
def connectRun (config : Option FunASRInitConfig) (url : String)
    (events : List ChannelEvent) : ConnectRun :=
  events.foldl (connectStep config url) connectInit

/-- The `resolveFinal` call guarded by `is_final` in the `onmessage`
handler (`src/funasr.ts`: `if (data.is_final) { resolveFinal(); }`);
resolving an already-fulfilled signal is a no-op. -/
def messageSignalStep (data : FunASRMessage) (s : SignalState) : SignalState :=
  if data.is_final then SignalState.fulfilled else s

/-- The completion-signal state after a sequence of inbound messages. -/
def runSignal (s : SignalState) (msgs : List FunASRMessage) : SignalState :=
  msgs.foldl (fun s m => messageSignalStep m s) s

/-- The `readyState` values of the host `WebSocket`. -/
inductive WSReadyState where
  | CONNECTING
  | OPEN
  | CLOSING
  | CLOSED
  deriving DecidableEq, Repr

/-- The mutable fields of `FunASRClient` relevant to `send`, `close` and
`setStartTime` (`src/funasr.ts`): the optional socket (with its
`readyState`), the optional `finalPromise` — abstracted to the time at
which it fulfils (`some (some t)`), `some none` when it never fulfils, and
`none` when `connect()` was never invoked so the field is still
`undefined` — and the mutable `opts.startTime`. -/
structure ClientState where
  socket : Option WSReadyState
  finalPromise : Option (Option Nat)
  startTime : Option Int
  deriving DecidableEq, Repr

/-- The `send(pcm)` method (`src/funasr.ts`: `if (this.socket?.readyState
=== WebSocket.OPEN) { this.socket.send(pcm.buffer); }`): returns the
unchanged client state and the transmitted frame, if any. The method is
total (never throws) and keeps no buffer. -/
def send (s : ClientState) (pcm : List Int) : ClientState × Option (List Int) :=
  if s.socket = some WSReadyState.OPEN then (s, some pcm) else (s, none)

/-- Time at which `await this.finalPromise` completes: immediately when the
field is still `undefined` (awaiting a non-promise completes on the next
microtask), at the fulfilment time when the promise fulfils, never
otherwise. -/
def awaitFinal : Option (Option Nat) → Option Nat
  | none => some 0
  | some none => none
  | some (some t) => some t

/-- Observable actions of one `close()` call, in execution order. -/
inductive CloseAction where
  | sendEOS
  | warnTimeout
  | closeSocket
  deriving DecidableEq, Repr

/-- Result of one `close()` call: the ordered observable actions, the time
at which the call returns (`none` when it never returns), and the socket
field afterwards. -/
structure CloseResult where
  trace : List CloseAction
  returnsAt : Option Nat
  socketAfter : Option WSReadyState
  deriving DecidableEq, Repr

/-- The `close(timeout)` method (`src/funasr.ts`): if the socket is open,
send `{is_speaking: false}`; with `timeout === null` await `finalPromise`;
otherwise race `finalPromise` against a `setTimeout` timer that resolves
and logs a warning at `T` (the timer is never cancelled, so the warning is
logged at `T` even when the final promise wins the race and the losing
branch is merely abandoned); finally `this.socket?.close()`. The socket
close and the return happen together once the awaited race settles. -/
def closeRun (s : ClientState) (timeout : Option Nat) : CloseResult :=
  let eos : List CloseAction :=
    if s.socket = some WSReadyState.OPEN then [CloseAction.sendEOS] else []
  let closeActs : List CloseAction :=
    if s.socket.isSome then [CloseAction.closeSocket] else []
  let closedSocket : Option WSReadyState :=
    s.socket.map (fun _ => WSReadyState.CLOSED)
  match timeout with
  | none =>
      match awaitFinal s.finalPromise with
      | none =>
          { trace := eos, returnsAt := none, socketAfter := s.socket }
      | some t =>
          { trace := eos ++ closeActs, returnsAt := some t,
            socketAfter := closedSocket }
  | some T =>
      match awaitFinal s.finalPromise with
      | none =>
          { trace := eos ++ [CloseAction.warnTimeout] ++ closeActs,
            returnsAt := some T, socketAfter := closedSocket }
      | some t =>
          if t < T then
            { trace := eos ++ closeActs ++ [CloseAction.warnTimeout],
              returnsAt := some t, socketAfter := closedSocket }
          else
            { trace := eos ++ [CloseAction.warnTimeout] ++ closeActs,
              returnsAt := some T, socketAfter := closedSocket }

/-- The `setStartTime(startTime)` method (`src/funasr.ts`:
`this.opts.startTime = startTime`). -/
def setStartTime (s : ClientState) (startTime : Int) : ClientState :=
  { s with startTime := some startTime }

/-- Caller-visible happenings interleaved within one session: an inbound
message processed by the `onmessage` handler, or a `setStartTime` call. -/
inductive SessionCmd where
  | msg (m : FunASRMessage)
  | setStart (t : Int)
  deriving DecidableEq, Repr

/-- Run a session in decoding mode: each inbound message is decoded with
the `opts.startTime` current at the moment the `onmessage` handler runs and
delivered to the `onMessage` callback; `setStartTime` mutates
`opts.startTime` for subsequent messages. Returns the final client state
and the delivered decoded results in order. -/
def runSession (parse : String → List (Int × Int)) :
    ClientState → List SessionCmd → ClientState × List FunASRMessageDecoded
  | s, [] => (s, [])
  | s, SessionCmd.msg m :: rest =>
      let d := decodeMessage parse s.startTime m
      let r := runSession parse s rest
      (r.1, d :: r.2)
  | s, SessionCmd.setStart t :: rest =>
      runSession parse (setStartTime s t) rest

end FunASR

namespace FunASR

/-- C1: with a supplied, strictly positive timeline origin `O`, the decoder
leaves the parsed `timestamp` equal to the parsed wire values, shifts every
top-level pair `[a, b]` to `[a + O, b + O]` unconditionally, and shifts a
sentence record's `start`/`end` by `O` exactly when the original value is
non-negative, passing negative sentinels through unchanged. -/
theorem decode_timestamp_shift (parse : String → List (Int × Int)) (O : Int)
    (hO : 0 < O) (data : FunASRMessage) :
    (decodeMessage parse (some O) data).timestamp = data.timestamp.map parse ∧
    (decodeMessage parse (some O) data).real_timestamp =
      (data.timestamp.map parse).map
        (fun l => l.map (fun ts => (ts.1 + O, ts.2 + O))) ∧
    (decodeMessage parse (some O) data).real_stamp_sents =
      data.stamp_sents.map (fun l => l.map (fun sent =>
        { sent with
          ts_list := sent.ts_list.map (fun ts => (ts.1 + O, ts.2 + O)),
          start := if 0 ≤ sent.start then sent.start + O else sent.start,
          «end» := if 0 ≤ sent.«end» then sent.«end» + O else sent.«end» })) := by
  have hpos : O > 0 := hO
  refine ⟨?_, ?_, ?_⟩ <;> simp only [decodeMessage, hpos, if_true] <;> rfl

/-- Witness for C1 at the spec's concrete inputs: origin `O = 1000`, a
sentence record with `start = 430`, `end = 1130` shifts to `1430, 2130`,
a record with `start = -1` keeps `-1`, and the top-level pair `[430, 1130]`
shifts to `[1430, 2130]` while the parsed `timestamp` stays `[430, 1130]`. -/
theorem decode_timestamp_shift_witness :
    (0 : Int) < 1000 ∧
    (decodeMessage (fun _ => [(430, 1130)]) (some 1000)
      { mode := "2pass-offline", wav_name := "w", text := "t", is_final := true
        timestamp := some "[[430,1130]]"
        stamp_sents := some
          [{ text_seg := "seg", punc := ",", start := 430, «end» := 1130,
             ts_list := [(430, 670)] },
           { text_seg := "", punc := "", start := -1, «end» := -1,
             ts_list := [] }] }).real_stamp_sents =
      some
        [{ text_seg := "seg", punc := ",", start := 1430, «end» := 2130,
           ts_list := [(1430, 1670)] },
         { text_seg := "", punc := "", start := -1, «end» := -1,
           ts_list := [] }] ∧
    (decodeMessage (fun _ => [(430, 1130)]) (some 1000)
      { mode := "2pass-offline", wav_name := "w", text := "t", is_final := true
        timestamp := some "[[430,1130]]"
        stamp_sents := none }).real_timestamp = some [(1430, 2130)] ∧
    (decodeMessage (fun _ => [(430, 1130)]) (some 1000)
      { mode := "2pass-offline", wav_name := "w", text := "t", is_final := true
        timestamp := some "[[430,1130]]"
        stamp_sents := none }).timestamp = some [(430, 1130)] := by
  refine ⟨by decide, ?_, ?_, ?_⟩
  · exact ((decode_timestamp_shift (fun _ => [(430, 1130)]) 1000 (by decide)
      { mode := "2pass-offline", wav_name := "w", text := "t", is_final := true
        timestamp := some "[[430,1130]]"
        stamp_sents := some
          [{ text_seg := "seg", punc := ",", start := 430, «end» := 1130,
             ts_list := [(430, 670)] },
           { text_seg := "", punc := "", start := -1, «end» := -1,
             ts_list := [] }] }).2.2).trans (by decide)
  · exact ((decode_timestamp_shift (fun _ => [(430, 1130)]) 1000 (by decide)
      { mode := "2pass-offline", wav_name := "w", text := "t", is_final := true
        timestamp := some "[[430,1130]]"
        stamp_sents := none }).2.1).trans (by decide)
  · exact ((decode_timestamp_shift (fun _ => [(430, 1130)]) 1000 (by decide)
      { mode := "2pass-offline", wav_name := "w", text := "t", is_final := true
        timestamp := some "[[430,1130]]"
        stamp_sents := none }).1).trans (by decide)

theorem runSignal_fulfilled_absorbing (msgs : List FunASRMessage) :
    runSignal SignalState.fulfilled msgs = SignalState.fulfilled := by
  induction msgs with
  | nil => rfl
  | cons m rest ih =>
      have hstep : messageSignalStep m SignalState.fulfilled = SignalState.fulfilled := by
        cases h : m.is_final <;> simp [messageSignalStep, h]
      simpa [runSignal, hstep] using ih

theorem runSignal_pending_iff (msgs : List FunASRMessage) :
    runSignal SignalState.pending msgs = SignalState.fulfilled ↔
      ∃ m ∈ msgs, m.is_final = true := by
  induction msgs with
  | nil => simp [runSignal]
  | cons m rest ih =>
      cases h : m.is_final with
      | true =>
          have : runSignal SignalState.pending (m :: rest) = SignalState.fulfilled := by
            simpa [runSignal, messageSignalStep, h] using
              runSignal_fulfilled_absorbing rest
          simp [this, h]
      | false =>
          have hrw : runSignal SignalState.pending (m :: rest) =
              runSignal SignalState.pending rest := by
            simp [runSignal, messageSignalStep, h]
          simp [hrw, ih, h]

/-- C5: within one session the completion signal is monotone and one-shot:
once fulfilled it stays fulfilled whatever further messages arrive
(fulfilment on a later terminal message is a no-op), and starting from
pending it is fulfilled exactly when some message with the finality flag
has been processed — in particular the first such message fulfils it and
it never transitions back. -/
theorem completion_signal_monotonic (msgs l1 l2 : List FunASRMessage) :
    runSignal SignalState.fulfilled msgs = SignalState.fulfilled ∧
    (runSignal SignalState.pending msgs = SignalState.fulfilled ↔
      ∃ m ∈ msgs, m.is_final = true) ∧
    (runSignal SignalState.pending l1 = SignalState.fulfilled →
      runSignal SignalState.pending (l1 ++ l2) = SignalState.fulfilled) := by
  refine ⟨runSignal_fulfilled_absorbing msgs, runSignal_pending_iff msgs, ?_⟩
  intro h
  have happ : runSignal SignalState.pending (l1 ++ l2) =
      runSignal (runSignal SignalState.pending l1) l2 := by
    simp [runSignal, List.foldl_append]
  rw [happ, h]
  exact runSignal_fulfilled_absorbing l2

/-- Witness for C5: a terminal message fulfils the signal, a second
terminal message leaves it fulfilled, and a final-flag-free sequence leaves
it pending. -/
theorem completion_signal_monotonic_witness :
    runSignal SignalState.pending
      [{ mode := "2pass-online", wav_name := "w", text := "a", is_final := true,
         timestamp := none, stamp_sents := none },
       { mode := "2pass-offline", wav_name := "w", text := "b", is_final := true,
         timestamp := none, stamp_sents := none }] = SignalState.fulfilled ∧
    runSignal SignalState.pending
      [{ mode := "2pass-online", wav_name := "w", text := "a", is_final := false,
         timestamp := none, stamp_sents := none }] ≠ SignalState.fulfilled := by
  constructor
  · exact (completion_signal_monotonic
      [{ mode := "2pass-online", wav_name := "w", text := "a", is_final := true,
         timestamp := none, stamp_sents := none },
       { mode := "2pass-offline", wav_name := "w", text := "b", is_final := true,
         timestamp := none, stamp_sents := none }] [] []).2.1.mpr (by decide)
  · intro hcon
    have := (completion_signal_monotonic
      [{ mode := "2pass-online", wav_name := "w", text := "a", is_final := false,
         timestamp := none, stamp_sents := none }] [] []).2.1.mp hcon
    simp at this

/-- C6: `send` on a client whose channel is not open (no socket yet,
connecting, closing or closed) transmits nothing, buffers nothing and
raises no error (the returned state is unchanged and the function is
total); on an open channel exactly the given frame is transmitted. -/
theorem send_noop_when_not_open (s : ClientState) (pcm : List Int) :
    (s.socket ≠ some WSReadyState.OPEN → send s pcm = (s, none)) ∧
    (s.socket = some WSReadyState.OPEN → send s pcm = (s, some pcm)) := by
  constructor <;> intro h <;> simp [send, h]

/-- Witness for C6: a closed socket drops the frame; an open socket
transmits exactly it. -/
theorem send_noop_when_not_open_witness :
    send { socket := some WSReadyState.CLOSED, finalPromise := none,
           startTime := none } [1, 2] =
      ({ socket := some WSReadyState.CLOSED, finalPromise := none,
         startTime := none }, none) ∧
    send { socket := some WSReadyState.OPEN, finalPromise := none,
           startTime := none } [1, 2] =
      ({ socket := some WSReadyState.OPEN, finalPromise := none,
         startTime := none }, some [1, 2]) :=
  ⟨(send_noop_when_not_open _ [1, 2]).1 (by decide),
   (send_noop_when_not_open _ [1, 2]).2 rfl⟩

/-- C3: `close()` without a timeout, on a session whose completion signal
fulfils at time `t`: the end-of-speech message is sent first and only if
the channel is open, the call waits for the completion signal (it returns
at `t`, after the terminal message is processed), and then — and only
then — the channel is closed, the close being the last action before the
return. -/
theorem close_without_timeout (s : ClientState) (st : WSReadyState) (t : Nat)
    (hsock : s.socket = some st) (hfinal : s.finalPromise = some (some t)) :
    (closeRun s none).trace =
      (if st = WSReadyState.OPEN then [CloseAction.sendEOS] else []) ++
        [CloseAction.closeSocket] ∧
    (closeRun s none).returnsAt = some t ∧
    (closeRun s none).socketAfter = some WSReadyState.CLOSED := by
  simp [closeRun, awaitFinal, hsock, hfinal]

/-- Witness for C3: open socket, signal fulfilled at time 5. -/
theorem close_without_timeout_witness :
    (closeRun { socket := some WSReadyState.OPEN,
                finalPromise := some (some 5), startTime := none } none).trace =
      [CloseAction.sendEOS, CloseAction.closeSocket] ∧
    (closeRun { socket := some WSReadyState.OPEN,
                finalPromise := some (some 5), startTime := none } none).returnsAt =
      some 5 := by
  have h := close_without_timeout
    { socket := some WSReadyState.OPEN, finalPromise := some (some 5),
      startTime := none } WSReadyState.OPEN 5 rfl rfl
  exact ⟨h.1.trans (by decide), h.2.1⟩

/-- C4: `close(timeout = T)` when the completion signal never fulfils: the
wait terminates through the timer branch at `T`, a warning is logged, the
channel is closed anyway, and the trace contains nothing else — the
abandoned completion branch has no further observable effect. -/
theorem close_timeout_forces_return (s : ClientState) (st : WSReadyState) (T : Nat)
    (hsock : s.socket = some st) (hfinal : s.finalPromise = some none) :
    (closeRun s (some T)).returnsAt = some T ∧
    CloseAction.warnTimeout ∈ (closeRun s (some T)).trace ∧
    (closeRun s (some T)).trace =
      (if st = WSReadyState.OPEN then [CloseAction.sendEOS] else []) ++
        [CloseAction.warnTimeout, CloseAction.closeSocket] ∧
    (closeRun s (some T)).socketAfter = some WSReadyState.CLOSED := by
  refine ⟨?_, ?_, ?_, ?_⟩ <;> simp [closeRun, awaitFinal, hsock, hfinal]

/-- Witness for C4: open socket, signal never fulfilled, timeout 100. -/
theorem close_timeout_forces_return_witness :
    (closeRun { socket := some WSReadyState.OPEN, finalPromise := some none,
                startTime := none } (some 100)).returnsAt = some 100 ∧
    (closeRun { socket := some WSReadyState.OPEN, finalPromise := some none,
                startTime := none } (some 100)).socketAfter =
      some WSReadyState.CLOSED := by
  have h := close_timeout_forces_return
    { socket := some WSReadyState.OPEN, finalPromise := some none,
      startTime := none } WSReadyState.OPEN 100 rfl rfl
  exact ⟨h.1, h.2.2.2⟩

/-- C10: `close()` on a client whose `connect()` was never invoked (socket
and `finalPromise` both still `undefined`): awaiting the undefined promise
completes immediately, so the call returns right away (at time 0), with no
end-of-speech message sent and no channel close attempted. -/
theorem close_before_connect (s : ClientState) (hsock : s.socket = none)
    (hfinal : s.finalPromise = none) :
    (closeRun s none).returnsAt = some 0 ∧
    (closeRun s none).trace = [] ∧
    (closeRun s none).socketAfter = none := by
  simp [closeRun, awaitFinal, hsock, hfinal]

/-- Witness for C10: the fresh never-connected client state. -/
theorem close_before_connect_witness :
    closeRun { socket := none, finalPromise := none, startTime := none } none =
      { trace := [], returnsAt := some 0, socketAfter := none } := by
  have h := close_before_connect
    { socket := none, finalPromise := none, startTime := none } rfl rfl
  cases hr : closeRun { socket := none, finalPromise := none, startTime := none } none
  simp_all

theorem runSession_msgs (parse : String → List (Int × Int)) (s : ClientState)
    (l : List FunASRMessage) :
    runSession parse s (l.map SessionCmd.msg) =
      (s, l.map (decodeMessage parse s.startTime)) := by
  induction l with
  | nil => rfl
  | cons m rest ih => simp [runSession, ih]

/-- C9: `setStartTime` mutates only the timeline origin (socket and
completion promise are untouched); in a session trace every message decoded
after the call is decoded with the new origin, while the results delivered
before the call are exactly those decoded with the old origin, unchanged. -/
theorem setStartTime_only_origin (parse : String → List (Int × Int))
    (s : ClientState) (t : Int) (l1 l2 : List FunASRMessage) :
    (setStartTime s t).startTime = some t ∧
    (setStartTime s t).socket = s.socket ∧
    (setStartTime s t).finalPromise = s.finalPromise ∧
    (runSession parse s
        (l1.map SessionCmd.msg ++ SessionCmd.setStart t :: l2.map SessionCmd.msg)).2 =
      l1.map (decodeMessage parse s.startTime) ++
        l2.map (decodeMessage parse (some t)) := by
  refine ⟨rfl, rfl, rfl, ?_⟩
  induction l1 generalizing s with
  | nil =>
      simp [runSession, runSession_msgs, setStartTime]
  | cons m rest ih =>
      simp [runSession, ih]

/-- Witness for C9: origin set to 1000 mid-session; the message before the
call is decoded without a shift, the one after with the 1000 ms shift. -/
theorem setStartTime_only_origin_witness :
    (runSession (fun _ => [(0, 100)])
        { socket := some WSReadyState.OPEN, finalPromise := some none,
          startTime := none }
        ([SessionCmd.msg
            { mode := "2pass-online", wav_name := "w", text := "a",
              is_final := false, timestamp := some "[[0,100]]",
              stamp_sents := none },
          SessionCmd.setStart 1000,
          SessionCmd.msg
            { mode := "2pass-online", wav_name := "w", text := "b",
              is_final := true, timestamp := some "[[0,100]]",
              stamp_sents := none }])).2 =
      [{ mode := "2pass-online", wav_name := "w", text := "a",
         is_final := false, timestamp := some [(0, 100)], stamp_sents := none,
         real_timestamp := none, real_stamp_sents := none },
       { mode := "2pass-online", wav_name := "w", text := "b",
         is_final := true, timestamp := some [(0, 100)], stamp_sents := none,
         real_timestamp := some [(1000, 1100)], real_stamp_sents := none }] := by
  have h := setStartTime_only_origin (fun _ => [(0, 100)])
    { socket := some WSReadyState.OPEN, finalPromise := some none,
      startTime := none } 1000
    [{ mode := "2pass-online", wav_name := "w", text := "a",
       is_final := false, timestamp := some "[[0,100]]", stamp_sents := none }]
    [{ mode := "2pass-online", wav_name := "w", text := "b",
       is_final := true, timestamp := some "[[0,100]]", stamp_sents := none }]
  exact h.2.2.2.trans (by decide)

theorem mem_optField {p : String × JsonValue} {key : String} {v : Option JsonValue} :
    p ∈ optField key v ↔ ∃ j, v = some j ∧ p = (key, j) := by
  cases v <;> simp [optField]

/-- C7: the handshake always carries `is_speaking: true`; a configured
hotword map appears as the JSON-encoded string of the map (double-encoded
inside the outer message); when no hotword map is configured the
`hotwords` member is absent from the serialized handshake, and no member
of the handshake is ever the JSON `null` (absent optional fields are
omitted, not sent as null). -/
theorem handshake_is_speaking_and_hotwords (config : Option FunASRInitConfig) :
    ("is_speaking", JsonValue.bool true) ∈ buildHandshake config ∧
    (∀ hw, config.bind (fun c => c.hotwords) = some hw →
      ("hotwords", JsonValue.str (stringifyHotwords hw)) ∈ buildHandshake config) ∧
    (config.bind (fun c => c.hotwords) = none →
      ∀ v, ("hotwords", v) ∉ buildHandshake config) ∧
    (∀ k, (k, JsonValue.null) ∉ buildHandshake config) := by
  refine ⟨?_, ?_, ?_, ?_⟩
  · simp [buildHandshake]
  · intro hw h
    simp [buildHandshake, optField, h]
  · intro h v
    simp [buildHandshake, mem_optField, h, Prod.ext_iff]
  · intro k
    cases config with
    | none => simp [buildHandshake, mem_optField, Prod.ext_iff]
    | some c =>
        simp [buildHandshake, mem_optField, Prod.ext_iff, Option.map_eq_some']

/-- Witness for C7, the spec's scenario: configuration
`\x7bmode: "2pass", hotwords: \x7b"alpha": 10\x7d\x7d` yields a handshake
containing `"is_speaking": true` and `"hotwords": "\x7b\"alpha\":10\x7d"`
(the double-encoded map), and with no hotwords configured the `hotwords`
member is absent. -/
theorem handshake_is_speaking_and_hotwords_witness :
    ("is_speaking", JsonValue.bool true) ∈
      buildHandshake (some { mode := some "2pass",
                             hotwords := some [("alpha", 10)] }) ∧
    ("hotwords", JsonValue.str "\x7b\"alpha\":10\x7d") ∈
      buildHandshake (some { mode := some "2pass",
                             hotwords := some [("alpha", 10)] }) ∧
    ∀ v, ("hotwords", v) ∉ buildHandshake (some { mode := some "2pass" }) := by
  refine ⟨(handshake_is_speaking_and_hotwords
    (some { mode := some "2pass", hotwords := some [("alpha", 10)] })).1, ?_, ?_⟩
  · have h := (handshake_is_speaking_and_hotwords
      (some { mode := some "2pass",
              hotwords := some [("alpha", 10)] })).2.1 [("alpha", 10)] rfl
    have henc : stringifyHotwords [("alpha", 10)] = "\x7b\"alpha\":10\x7d" := by
      decide
    rwa [henc] at h
  · exact (handshake_is_speaking_and_hotwords (some { mode := some "2pass" })).2.2.1 rfl

/-- C8: the transmitted handshake always contains a `chunk_size` member:
the protocol default `[5, 10, 5]` when the caller configuration omits the
chunking descriptor, and the caller's descriptor when supplied — the
handshake merges caller configuration with protocol defaults. -/
theorem handshake_chunk_size_default (config : Option FunASRInitConfig) :
    (config.bind (fun c => c.chunk_size) = none →
      ("chunk_size", JsonValue.numArr [5, 10, 5]) ∈ buildHandshake config) ∧
    ∀ cs, config.bind (fun c => c.chunk_size) = some cs →
      ("chunk_size", JsonValue.numArr cs) ∈ buildHandshake config := by
  constructor
  · intro h
    simp [buildHandshake, h]
  · intro cs h
    simp [buildHandshake, h]

/-- Witness for C8: with no configuration at all the handshake carries the
default `chunk_size` `[5, 10, 5]`; with a configured `[4, 8, 4]` it carries
that instead. -/
theorem handshake_chunk_size_default_witness :
    ("chunk_size", JsonValue.numArr [5, 10, 5]) ∈ buildHandshake none ∧
    ("chunk_size", JsonValue.numArr [4, 8, 4]) ∈
      buildHandshake (some { chunk_size := some [4, 8, 4] }) :=
  ⟨(handshake_chunk_size_default none).1 rfl,
   (handshake_chunk_size_default (some { chunk_size := some [4, 8, 4] })).2
     [4, 8, 4] rfl⟩

theorem settle_of_ne_pending {p o : PromiseState} (h : p ≠ PromiseState.pending) :
    settle p o = p := by
  cases p <;> simp_all [settle]

theorem connectStep_promise_settled (config : Option FunASRInitConfig) (url : String)
    (r : ConnectRun) (e : ChannelEvent) (h : r.promise ≠ PromiseState.pending) :
    (connectStep config url r e).promise = r.promise := by
  cases e <;> simp [connectStep, settle_of_ne_pending h]

theorem foldl_connectStep_settled (config : Option FunASRInitConfig) (url : String)
    (evs : List ChannelEvent) (r : ConnectRun) (h : r.promise ≠ PromiseState.pending) :
    (evs.foldl (connectStep config url) r).promise = r.promise := by
  induction evs generalizing r with
  | nil => rfl
  | cons e rest ih =>
      have hstep := connectStep_promise_settled config url r e h
      rw [List.foldl_cons, ih _ (by rw [hstep]; exact h), hstep]

theorem connectStep_sent_mono (config : Option FunASRInitConfig) (url : String)
    (r : ConnectRun) (e : ChannelEvent) (x : List (String × JsonValue))
    (h : x ∈ r.sent) : x ∈ (connectStep config url r e).sent := by
  cases e <;> simp [connectStep, h]

theorem foldl_connectStep_sent_mono (config : Option FunASRInitConfig) (url : String)
    (evs : List ChannelEvent) (r : ConnectRun) (x : List (String × JsonValue))
    (h : x ∈ r.sent) : x ∈ (evs.foldl (connectStep config url) r).sent := by
  induction evs generalizing r with
  | nil => exact h
  | cons e rest ih =>
      rw [List.foldl_cons]
      exact ih _ (connectStep_sent_mono config url r e x h)

theorem connectRun_no_open (config : Option FunASRInitConfig) (url : String)
    (evs : List ChannelEvent) (r : ConnectRun)
    (hno : ChannelEvent.opened ∉ evs) (hp : r.promise = PromiseState.pending) :
    ((evs.foldl (connectStep config url) r).promise = PromiseState.pending ∧
      ChannelEvent.errored ∉ evs ∧ ChannelEvent.closed ∉ evs) ∨
    (((evs.foldl (connectStep config url) r).promise =
        PromiseState.rejected (failedMsg url) ∨
      (evs.foldl (connectStep config url) r).promise =
        PromiseState.rejected (closedMsg url)) ∧
      (ChannelEvent.errored ∈ evs ∨ ChannelEvent.closed ∈ evs)) := by
  induction evs generalizing r with
  | nil => exact Or.inl ⟨hp, by simp, by simp⟩
  | cons e rest ih =>
      have hne : e ≠ ChannelEvent.opened := fun he => hno (by simp [he])
      have hnorest : ChannelEvent.opened ∉ rest := fun hr => hno (by simp [hr])
      cases e with
      | opened => exact absurd rfl hne
      | message d =>
          have hstep : (connectStep config url r (ChannelEvent.message d)).promise =
              PromiseState.pending := by simp [connectStep, hp]
          rcases ih (connectStep config url r (ChannelEvent.message d)) hnorest hstep with
            ⟨h1, h2, h3⟩ | ⟨h1, h2⟩
          · exact Or.inl ⟨by simpa using h1, by simp [h2], by simp [h3]⟩
          · refine Or.inr ⟨by simpa using h1, ?_⟩
            rcases h2 with h2 | h2
            · exact Or.inl (List.mem_cons_of_mem _ h2)
            · exact Or.inr (List.mem_cons_of_mem _ h2)
      | errored =>
          have hstep : (connectStep config url r ChannelEvent.errored).promise =
              PromiseState.rejected (failedMsg url) := by
            simp [connectStep, hp, settle]
          refine Or.inr ⟨Or.inl ?_, by simp⟩
          rw [List.foldl_cons,
            foldl_connectStep_settled config url rest _ (by rw [hstep]; simp), hstep]
      | closed =>
          have hstep : (connectStep config url r ChannelEvent.closed).promise =
              PromiseState.rejected (closedMsg url) := by
            simp [connectStep, hp, settle]
          refine Or.inr ⟨Or.inr ?_, by simp⟩
          rw [List.foldl_cons,
            foldl_connectStep_settled config url rest _ (by rw [hstep]; simp), hstep]

/-- C2: over any channel trace in which an open event, if one occurs at
all, is the first event, the promise returned by `connect()` resolves
exactly when the channel signalled open — and then the handshake payload
has been transmitted — and is rejected exactly when the channel signalled
an error or closed without ever opening; every rejection reason is one of
the two descriptive messages naming the target endpoint `url`. -/
theorem connect_promise_semantics (config : Option FunASRInitConfig) (url : String)
    (evs : List ChannelEvent)
    (hwf : ChannelEvent.opened ∈ evs →
      ∃ rest, evs = ChannelEvent.opened :: rest) :
    ((connectRun config url evs).promise = PromiseState.resolved ↔
      ChannelEvent.opened ∈ evs) ∧
    ((connectRun config url evs).promise = PromiseState.resolved →
      buildHandshake config ∈ (connectRun config url evs).sent) ∧
    ((∃ m, (connectRun config url evs).promise = PromiseState.rejected m) ↔
      (ChannelEvent.opened ∉ evs ∧
        (ChannelEvent.errored ∈ evs ∨ ChannelEvent.closed ∈ evs))) ∧
    (∀ m, (connectRun config url evs).promise = PromiseState.rejected m →
      m = failedMsg url ∨ m = closedMsg url) := by
  by_cases hop : ChannelEvent.opened ∈ evs
  · obtain ⟨rest, hrest⟩ := hwf hop
    subst hrest
    have hstepp : (connectStep config url connectInit ChannelEvent.opened).promise =
        PromiseState.resolved := rfl
    have hres : (connectRun config url (ChannelEvent.opened :: rest)).promise =
        PromiseState.resolved := by
      rw [connectRun, List.foldl_cons,
        foldl_connectStep_settled config url rest _ (by rw [hstepp]; simp), hstepp]
    have hsent : buildHandshake config ∈
        (connectRun config url (ChannelEvent.opened :: rest)).sent := by
      rw [connectRun, List.foldl_cons]
      exact foldl_connectStep_sent_mono config url rest _ _
        (by simp [connectStep, connectInit])
    refine ⟨⟨fun _ => by simp, fun _ => hres⟩, fun _ => hsent, ?_, ?_⟩
    · constructor
      · rintro ⟨m, hm⟩
        rw [hres] at hm
        exact absurd hm (by simp)
      · rintro ⟨hnop, _⟩
        exact absurd (by simp) hnop
    · intro m hm
      rw [hres] at hm
      exact absurd hm (by simp)
  · rcases connectRun_no_open config url evs connectInit hop rfl with
      ⟨h1, h2, h3⟩ | ⟨h1, h2⟩
    · refine ⟨⟨fun hr => ?_, fun hin => absurd hin hop⟩,
        fun hr => ?_, ⟨?_, ?_⟩, ?_⟩
      · rw [connectRun] at hr; rw [hr] at h1; exact absurd h1 (by simp)
      · rw [connectRun] at hr; rw [hr] at h1; exact absurd h1 (by simp)
      · rintro ⟨m, hm⟩
        rw [connectRun] at hm; rw [hm] at h1; exact absurd h1 (by simp)
      · rintro ⟨_, herr | hcl⟩
        · exact absurd herr h2
        · exact absurd hcl h3
      · intro m hm
        rw [connectRun] at hm; rw [hm] at h1; exact absurd h1 (by simp)
    · refine ⟨⟨fun hr => ?_, fun hin => absurd hin hop⟩,
        fun hr => ?_, ⟨fun _ => ⟨hop, h2⟩, fun _ => ?_⟩, ?_⟩
      · rw [connectRun] at hr
        rcases h1 with h1 | h1 <;> rw [hr] at h1 <;> exact absurd h1 (by simp)
      · rw [connectRun] at hr
        rcases h1 with h1 | h1 <;> rw [hr] at h1 <;> exact absurd h1 (by simp)
      · rcases h1 with h1 | h1 <;> exact ⟨_, by rw [connectRun]; exact h1⟩
      · intro m hm
        rw [connectRun] at hm
        rcases h1 with h1 | h1 <;> rw [hm] at h1 <;>
          simp only [PromiseState.rejected.injEq] at h1
        · exact Or.inl h1
        · exact Or.inr h1

/-- Witness for C2: on the trace `[opened]` the promise resolves and the
handshake is among the transmitted payloads; on the trace `[errored]` it is
rejected with the message naming the endpoint. -/
theorem connect_promise_semantics_witness :
    (connectRun none "ws://h" [ChannelEvent.opened]).promise =
      PromiseState.resolved ∧
    buildHandshake none ∈ (connectRun none "ws://h" [ChannelEvent.opened]).sent ∧
    (connectRun none "ws://h" [ChannelEvent.errored]).promise =
      PromiseState.rejected (failedMsg "ws://h") := by
  have h := connect_promise_semantics none "ws://h" [ChannelEvent.opened]
    (fun _ => ⟨[], rfl⟩)
  have hres := h.1.mpr (by decide)
  exact ⟨hres, h.2.1 hres, by decide⟩

end FunASR
